import Mathlib

set_option maxRecDepth 100000

/-!
Verification of the PulsarV2 real-time audio processing core.

This file gives a shallow embedding, in Lean 4, of the parts of the
`pulsar_backend` crate that the checked properties talk about:

* `rt_processing/waveform/envelopes.rs` — the `ADSREnvelope` state machine;
* `rt_processing/waveform/oscillators.rs` and `tables.rs` — oscillator
  phase accumulation and `normalize_phase`;
* `rt_processing/waveform/noise.rs` — the `FastRng` linear congruential
  generator and the white/brown noise generators built on it;
* `rt_processing/callback.rs` — `CallbackSlot::process_realtime`;
* `rt_processing/routing.rs` — `Pan::gains` and `Router::process`.

Modelling conventions: `f32` arithmetic is embedded as exact arithmetic
(`ℚ` for the executable state machines, `ℝ` for the pan laws where
`cos`/`sin` appear); `u32`/`u64` integers are `ℕ` with explicit `% 2^32`
or `% 2^64` where the source wraps; in-place buffer mutation becomes
explicit state passing returning the new buffer; the nondeterministic
outcome of `spin::Mutex::try_lock` is an explicit boolean parameter.
Rust's saturating `as u32` float-to-integer cast and `f32::clamp` are
modelled by `f32ToU32` and `clampQ` below.
-/

namespace Pulsar

/-- Rust `f32::clamp(lo, hi)` on exact rationals: identity on `[lo, hi]`,
otherwise the nearer bound. -/
def clampQ (lo hi x : ℚ) : ℚ :=
  if x < lo then lo else if x > hi then hi else x

/-- Rust `expr as u32` for a nonnegative-or-negative float value, embedded on
exact rationals: truncation toward zero, saturating into `[0, 2^32 - 1]`
(negative values go to `0`). -/
def f32ToU32 (x : ℚ) : ℕ :=
  if x ≤ 0 then 0 else min x.floor.toNat (2 ^ 32 - 1)

/-! ## ADSR envelope (`rt_processing/waveform/envelopes.rs`) -/

/-- `EnvelopeState` from `envelopes.rs`. -/
inductive EnvelopeState where
  | Idle
  | Attack
  | Decay
  | Sustain
  | Release
  | Finished
deriving DecidableEq, Repr

/-- `ADSREnvelope` from `envelopes.rs`.  Field for field the Rust struct:
timing parameters in seconds, current state and value, the cached sample
rate, the derived per-phase sample counts, and the two note-control flags. -/
structure ADSREnvelope where
  attack_time : ℚ
  decay_time : ℚ
  sustain_level : ℚ
  release_time : ℚ
  state : EnvelopeState
  current_value : ℚ
  sample_rate : ℚ
  attack_samples : ℕ
  decay_samples : ℕ
  release_samples : ℕ
  current_sample : ℕ
  note_on : Bool
  note_off_triggered : Bool
deriving DecidableEq, Repr

namespace ADSREnvelope

/-- `ADSREnvelope::update_sample_counts`: recompute the three `*_samples`
counts from the stored times and the cached sample rate, with Rust's
saturating `as u32` cast. -/
def updateSampleCounts (e : ADSREnvelope) : ADSREnvelope :=
  { e with
    attack_samples := f32ToU32 (e.attack_time * e.sample_rate)
    decay_samples := f32ToU32 (e.decay_time * e.sample_rate)
    release_samples := f32ToU32 (e.release_time * e.sample_rate) }

/-- `ADSREnvelope::new`: clamps the sustain level into `[0,1]`, starts
`Idle` at value `0` with the default sample rate `44100`. -/
def new (attack_time decay_time sustain_level release_time : ℚ) : ADSREnvelope :=
  { attack_time := attack_time
    decay_time := decay_time
    sustain_level := clampQ 0 1 sustain_level
    release_time := release_time
    state := .Idle
    current_value := 0
    sample_rate := 44100
    attack_samples := 0
    decay_samples := 0
    release_samples := 0
    current_sample := 0
    note_on := false
    note_off_triggered := false }

/-- `ADSREnvelope::quick`: the 10 ms / 100 ms / 0.7 / 300 ms preset. -/
def quick : ADSREnvelope := new (1 / 100) (1 / 10) (7 / 10) (3 / 10)

/-- `ADSREnvelope::note_on` (the method): enter `Attack`, reset the sample
counter, recompute sample counts. -/
def noteOn (e : ADSREnvelope) : ADSREnvelope :=
  updateSampleCounts
    { e with note_on := true, note_off_triggered := false,
             state := .Attack, current_sample := 0 }

/-- `ADSREnvelope::note_off` (the method): idempotent; only acts when a note
is on and note-off has not been triggered yet. -/
def noteOff (e : ADSREnvelope) : ADSREnvelope :=
  if e.note_on && !e.note_off_triggered then
    { e with note_on := false, note_off_triggered := true,
             state := .Release, current_sample := 0 }
  else e

/-- `ADSREnvelope::reset`. -/
def reset (e : ADSREnvelope) : ADSREnvelope :=
  { e with state := .Idle, current_value := 0, current_sample := 0,
           note_on := false, note_off_triggered := false }

/-- `ADSREnvelope::set_attack_time`. -/
def setAttackTime (e : ADSREnvelope) (t : ℚ) : ADSREnvelope :=
  updateSampleCounts { e with attack_time := t }

/-- `ADSREnvelope::set_decay_time`. -/
def setDecayTime (e : ADSREnvelope) (t : ℚ) : ADSREnvelope :=
  updateSampleCounts { e with decay_time := t }

/-- `ADSREnvelope::set_sustain_level`: clamps into `[0,1]`. -/
def setSustainLevel (e : ADSREnvelope) (l : ℚ) : ADSREnvelope :=
  { e with sustain_level := clampQ 0 1 l }

/-- `ADSREnvelope::set_release_time`. -/
def setReleaseTime (e : ADSREnvelope) (t : ℚ) : ADSREnvelope :=
  updateSampleCounts { e with release_time := t }

/-- `ADSREnvelope::process_sample`: one step of the state machine, exactly
as in `envelopes.rs` lines 161–231 (including the overwrite of the freshly
computed ramp value by the phase-end constant when the incremented sample
counter reaches the phase length). -/
def processSample (e : ADSREnvelope) : ADSREnvelope :=
  match e.state with
  | .Idle => { e with current_value := 0 }
  | .Attack =>
    if e.attack_samples = 0 then
      { e with current_value := 1, state := .Decay, current_sample := 0 }
    else
      let v : ℚ := (e.current_sample : ℚ) / (e.attack_samples : ℚ)
      let cs := e.current_sample + 1
      if cs ≥ e.attack_samples then
        { e with current_value := 1, state := .Decay, current_sample := 0 }
      else
        { e with current_value := v, current_sample := cs }
  | .Decay =>
    if e.decay_samples = 0 then
      { e with current_value := e.sustain_level, state := .Sustain }
    else
      let progress : ℚ := (e.current_sample : ℚ) / (e.decay_samples : ℚ)
      let v : ℚ := 1 - progress * (1 - e.sustain_level)
      let cs := e.current_sample + 1
      if cs ≥ e.decay_samples then
        { e with current_value := e.sustain_level, state := .Sustain, current_sample := cs }
      else
        { e with current_value := v, current_sample := cs }
  | .Sustain => { e with current_value := e.sustain_level }
  | .Release =>
    if e.release_samples = 0 then
      { e with current_value := 0, state := .Finished }
    else
      let start : ℚ := if e.note_off_triggered then e.current_value else e.sustain_level
      let progress : ℚ := (e.current_sample : ℚ) / (e.release_samples : ℚ)
      let v : ℚ := start * (1 - progress)
      let cs := e.current_sample + 1
      if cs ≥ e.release_samples then
        { e with current_value := 0, state := .Finished, current_sample := cs }
      else
        { e with current_value := v, current_sample := cs }
  | .Finished => { e with current_value := 0 }

/-- `ADSREnvelope::get_value(sample_rate)`: refresh the cached sample rate
and counts if the rate changed, run one `process_sample` step, and return
the updated envelope together with the returned `current_value`. -/
def getValue (e : ADSREnvelope) (rate : ℚ) : ADSREnvelope × ℚ :=
  let e1 := if e.sample_rate ≠ rate then
      updateSampleCounts { e with sample_rate := rate }
    else e
  let e2 := processSample e1
  (e2, e2.current_value)

/-- Apply `n` consecutive `get_value(rate)` calls, keeping only the state. -/
def getValues (e : ADSREnvelope) (rate : ℚ) : ℕ → ADSREnvelope
  | 0 => e
  | n + 1 => getValues (e.getValue rate).1 rate n

end ADSREnvelope

/-- A control- or render-thread operation on an `ADSREnvelope`, covering the
public mutating API of `envelopes.rs`. -/
inductive EnvOp where
  | noteOn
  | noteOff
  | reset
  | setAttackTime (t : ℚ)
  | setDecayTime (t : ℚ)
  | setSustainLevel (l : ℚ)
  | setReleaseTime (t : ℚ)
  | getValue (rate : ℚ)
deriving DecidableEq, Repr

/-- Interpret one `EnvOp`. -/
def applyEnvOp (e : ADSREnvelope) : EnvOp → ADSREnvelope
  | .noteOn => e.noteOn
  | .noteOff => e.noteOff
  | .reset => e.reset
  | .setAttackTime t => e.setAttackTime t
  | .setDecayTime t => e.setDecayTime t
  | .setSustainLevel l => e.setSustainLevel l
  | .setReleaseTime t => e.setReleaseTime t
  | .getValue rate => (e.getValue rate).1

/-- Interpret a sequence of `EnvOp`s, left to right. -/
def applyEnvOps (e : ADSREnvelope) (ops : List EnvOp) : ADSREnvelope :=
  ops.foldl applyEnvOp e

/-- The C3 scenario: the `quick` preset right after `note_on`. -/
def adsrQuickOn : ADSREnvelope := ADSREnvelope.quick.noteOn

/-- The C3 scenario at the start of release: 110 `get_value(1000)` calls
(attack and decay done, in `Sustain` at `0.7`), then `note_off`. -/
def adsrRel : ADSREnvelope := (adsrQuickOn.getValues 1000 110).noteOff

/-- A release-phase envelope used to witness the general release-step facts:
in `Release` after `note_off`, value `1/2`, 5 of 300 release samples done. -/
def adsrRelWit : ADSREnvelope :=
  { attack_time := 1 / 100, decay_time := 1 / 10, sustain_level := 7 / 10,
    release_time := 3 / 10, state := .Release, current_value := 1 / 2,
    sample_rate := 1000, attack_samples := 10, decay_samples := 100,
    release_samples := 300, current_sample := 5, note_on := false,
    note_off_triggered := true }

/-! ## Oscillator phase (`waveform/tables.rs`, `waveform/oscillators.rs`)

The wavetable lookup that produces the sample VALUES is transcendental
(sine table) and matters to no checked claim; the phase dynamics — what
claim C5 is about — are embedded exactly. -/

/-- `WaveformType` from `tables.rs`. -/
inductive WaveformType where
  | Sine
  | Triangle
  | Sawtooth
  | Square
deriving DecidableEq, Repr

/-- `normalize_phase` from `tables.rs`: `phase - phase.floor()`. -/
def normalize_phase (phase : ℚ) : ℚ := phase - ⌊phase⌋

/-- `phase_increment` from `tables.rs`: `frequency / sample_rate`. -/
def phase_increment (frequency sample_rate : ℚ) : ℚ := frequency / sample_rate

/-- `Oscillator` from `oscillators.rs` (the sample-generation fields;
the phase cell is the `AtomicCell<f32>`). -/
structure Oscillator where
  waveform : WaveformType
  frequency : ℚ
  amplitude : ℚ
  phase : ℚ
  active : Bool
  use_interpolation : Bool
deriving DecidableEq, Repr

namespace Oscillator

/-- `Oscillator::new`: phase `0`, amplitude `0.5`, active, interpolated. -/
def new (waveform : WaveformType) (frequency : ℚ) : Oscillator :=
  { waveform := waveform, frequency := frequency, amplitude := 1 / 2,
    phase := 0, active := true, use_interpolation := true }

/-- `Oscillator::with_amplitude` / `set_amplitude`: clamps into `[0,1]`. -/
def setAmplitude (o : Oscillator) (amplitude : ℚ) : Oscillator :=
  { o with amplitude := clampQ 0 1 amplitude }

/-- `Oscillator::with_phase` / `set_phase`: stores `normalize_phase(phase)`. -/
def setPhase (o : Oscillator) (phase : ℚ) : Oscillator :=
  { o with phase := normalize_phase phase }

/-- `Oscillator::set_frequency` (no clamping). -/
def setFrequency (o : Oscillator) (frequency : ℚ) : Oscillator :=
  { o with frequency := frequency }

/-- `Oscillator::set_waveform`. -/
def setWaveform (o : Oscillator) (w : WaveformType) : Oscillator :=
  { o with waveform := w }

/-- `Oscillator::set_interpolation`. -/
def setInterpolation (o : Oscillator) (b : Bool) : Oscillator :=
  { o with use_interpolation := b }

/-- `Oscillator::start`. -/
def start (o : Oscillator) : Oscillator := { o with active := true }

/-- `Oscillator::stop`. -/
def stop (o : Oscillator) : Oscillator := { o with active := false }

/-- `Oscillator::toggle`. -/
def toggle (o : Oscillator) : Oscillator := { o with active := !o.active }

/-- `Oscillator::reset` (the `AudioSource` impl): phase to `0`, active. -/
def reset (o : Oscillator) : Oscillator := { o with phase := 0, active := true }

/-- `Oscillator::next_sample`, phase action: load the phase, add one
increment, store the normalized result.  (The returned sample — table
lookup times amplitude — is not modelled.) -/
def nextSample (o : Oscillator) (sample_rate : ℚ) : Oscillator :=
  { o with phase := normalize_phase (o.phase + phase_increment o.frequency sample_rate) }

end Oscillator

/-- The phase accumulation of the `fill_buffer` loop: one increment added
per frame (normalization happens once, after the loop). -/
def accumPhase (inc : ℚ) : ℕ → ℚ → ℚ
  | 0, p => p
  | n + 1, p => accumPhase inc n (p + inc)

/-- `Oscillator::fill_buffer`, phase action: if inactive the buffer is
zero-filled and the phase is untouched; otherwise the phase advances by one
increment per frame and the final phase is stored normalized.  `channels`
only shapes the output buffer and cannot affect the phase. -/
def Oscillator.fillBuffer (o : Oscillator) (sample_rate : ℚ)
    (channels frame_count : ℕ) : Oscillator :=
  if !o.active then o
  else
    { o with phase :=
        normalize_phase (accumPhase (phase_increment o.frequency sample_rate) frame_count o.phase) }

/-- `SineOscillator` from `oscillators.rs`. -/
structure SineOscillator where
  frequency : ℚ
  amplitude : ℚ
  phase : ℚ
  active : Bool
deriving DecidableEq, Repr

namespace SineOscillator

/-- `SineOscillator::new`: phase `0`, amplitude `0.5`, active. -/
def new (frequency : ℚ) : SineOscillator :=
  { frequency := frequency, amplitude := 1 / 2, phase := 0, active := true }

/-- `SineOscillator::set_amplitude` / `with_amplitude`: clamps into `[0,1]`. -/
def setAmplitude (s : SineOscillator) (amplitude : ℚ) : SineOscillator :=
  { s with amplitude := clampQ 0 1 amplitude }

/-- `SineOscillator::fill_buffer`, phase action (same loop as
`Oscillator::fill_buffer`, always interpolated sine). -/
def fillBuffer (s : SineOscillator) (sample_rate : ℚ)
    (channels frame_count : ℕ) : SineOscillator :=
  if !s.active then s
  else
    { s with phase :=
        normalize_phase (accumPhase (phase_increment s.frequency sample_rate) frame_count s.phase) }

/-- `SineOscillator::reset`. -/
def reset (s : SineOscillator) : SineOscillator := { s with phase := 0, active := true }

end SineOscillator

/-- An operation on an `Oscillator` (render calls and the public setters). -/
inductive OscOp where
  | nextSample (rate : ℚ)
  | fillBuffer (rate : ℚ) (channels frames : ℕ)
  | setWaveform (w : WaveformType)
  | setFrequency (f : ℚ)
  | setAmplitude (a : ℚ)
  | setPhase (p : ℚ)
  | setInterpolation (b : Bool)
  | start
  | stop
  | toggle
  | reset
deriving DecidableEq, Repr

/-- Interpret one `OscOp`. -/
def applyOscOp (o : Oscillator) : OscOp → Oscillator
  | .nextSample rate => o.nextSample rate
  | .fillBuffer rate ch fr => o.fillBuffer rate ch fr
  | .setWaveform w => o.setWaveform w
  | .setFrequency f => o.setFrequency f
  | .setAmplitude a => o.setAmplitude a
  | .setPhase p => o.setPhase p
  | .setInterpolation b => o.setInterpolation b
  | .start => o.start
  | .stop => o.stop
  | .toggle => o.toggle
  | .reset => o.reset

/-- Interpret a sequence of `OscOp`s, left to right. -/
def applyOscOps (o : Oscillator) (ops : List OscOp) : Oscillator :=
  ops.foldl applyOscOp o

/-- A `SineOscillator` call: `fill_buffer(rate, channels, frames)` or `reset`. -/
inductive SineOp where
  | fillBuffer (rate : ℚ) (channels frames : ℕ)
  | setAmplitude (a : ℚ)
  | reset
deriving DecidableEq, Repr

/-- Interpret one `SineOp`. -/
def applySineOp (s : SineOscillator) : SineOp → SineOscillator
  | .fillBuffer rate ch fr => s.fillBuffer rate ch fr
  | .setAmplitude a => s.setAmplitude a
  | .reset => s.reset

/-- Interpret a sequence of `SineOp`s, left to right. -/
def applySineOps (s : SineOscillator) (ops : List SineOp) : SineOscillator :=
  ops.foldl applySineOp s

/-! ## Noise generators (`waveform/noise.rs`) -/

/-- `2^32`, the modulus of the `u32` LCG state. -/
def U32MOD : ℕ := 4294967296

/-- `FastRng` from `noise.rs`: a `u32` LCG state. -/
structure FastRng where
  state : ℕ
deriving DecidableEq, Repr

namespace FastRng

/-- `FastRng::new(seed)`: a zero seed is replaced by `1`. -/
def new (seed : ℕ) : FastRng := ⟨if seed = 0 then 1 else seed⟩

/-- `FastRng::next_u32`: `state = state.wrapping_mul(1664525).wrapping_add(1013904223)`,
returning the new state. -/
def nextU32 (r : FastRng) : FastRng × ℕ :=
  let s := (r.state * 1664525 + 1013904223) % U32MOD
  (⟨s⟩, s)

/-- `FastRng::next_f32`: `(next_u32 as f32) * (1.0 / 4294967296.0)`,
embedded exactly as `n / 2^32`. -/
def nextF32 (r : FastRng) : FastRng × ℚ :=
  let p := r.nextU32
  (p.1, (p.2 : ℚ) * (1 / 4294967296))

/-- `FastRng::next_bipolar`: `(next_f32 - 0.5) * 2.0`. -/
def nextBipolar (r : FastRng) : FastRng × ℚ :=
  let p := r.nextF32
  (p.1, (p.2 - 1 / 2) * 2)

end FastRng

/-- `WhiteNoise` from `noise.rs`. -/
structure WhiteNoise where
  rng : FastRng
  amplitude : ℚ
  active : Bool
deriving DecidableEq, Repr

namespace WhiteNoise

/-- `WhiteNoise::with_seed`. -/
def withSeed (seed : ℕ) : WhiteNoise :=
  { rng := FastRng.new seed, amplitude := 1 / 10, active := true }

/-- `WhiteNoise::set_seed`: replaces only the generator state. -/
def setSeed (w : WhiteNoise) (seed : ℕ) : WhiteNoise :=
  { w with rng := FastRng.new seed }

/-- `WhiteNoise::set_amplitude`: clamps into `[0,1]`. -/
def setAmplitude (w : WhiteNoise) (amplitude : ℚ) : WhiteNoise :=
  { w with amplitude := clampQ 0 1 amplitude }

end WhiteNoise

/-- The frame loop of `WhiteNoise::fill_buffer`: one bipolar draw per frame,
the sample `draw * amplitude` replicated across the channels of the frame. -/
def whiteFrames (amp : ℚ) (channels : ℕ) : ℕ → FastRng → FastRng × List ℚ
  | 0, r => (r, [])
  | n + 1, r =>
    let p := r.nextBipolar
    let q := whiteFrames amp channels n p.1
    (q.1, List.replicate channels (p.2 * amp) ++ q.2)

/-- `WhiteNoise::fill_buffer` (`sample_rate` is ignored by the source):
inactive fills the `frames * channels` buffer with zeros; active emits the
frame loop's samples and stores the advanced generator. -/
def WhiteNoise.fillBuffer (w : WhiteNoise) (channels frames : ℕ) : WhiteNoise × List ℚ :=
  if !w.active then (w, List.replicate (frames * channels) 0)
  else
    let p := whiteFrames w.amplitude channels frames w.rng
    ({ w with rng := p.1 }, p.2)

/-- Run a `WhiteNoise` generator through a list of
`(sample_rate, channels, frames)` calls, collecting each call's output. -/
def runWhite (w : WhiteNoise) : List (ℚ × ℕ × ℕ) → List (List ℚ)
  | [] => []
  | (_, ch, fr) :: rest =>
    let p := w.fillBuffer ch fr
    p.2 :: runWhite p.1 rest

/-- `BrownNoise` from `noise.rs`. -/
structure BrownNoise where
  rng : FastRng
  previous_sample : ℚ
  amplitude : ℚ
  active : Bool
deriving DecidableEq, Repr

namespace BrownNoise

/-- `BrownNoise::with_seed`. -/
def withSeed (seed : ℕ) : BrownNoise :=
  { rng := FastRng.new seed, previous_sample := 0, amplitude := 1 / 20, active := true }

/-- `BrownNoise::set_seed`: replaces the generator state and resets the
integrator. -/
def setSeed (b : BrownNoise) (seed : ℕ) : BrownNoise :=
  { b with rng := FastRng.new seed, previous_sample := 0 }

/-- `BrownNoise::set_amplitude`: clamps into `[0,1]`. -/
def setAmplitude (b : BrownNoise) (amplitude : ℚ) : BrownNoise :=
  { b with amplitude := clampQ 0 1 amplitude }

end BrownNoise

/-- The frame loop of `BrownNoise::fill_buffer`: integrate a small white
step, apply the `0.9999` leak, clamp to `[-1,1]`, emit `value * amplitude`
across the channels of the frame. -/
def brownFrames (amp : ℚ) (channels : ℕ) : ℕ → FastRng → ℚ → FastRng × ℚ × List ℚ
  | 0, r, prev => (r, prev, [])
  | n + 1, r, prev =>
    let p := r.nextBipolar
    let next := clampQ (-1) 1 ((prev + p.2 * (1 / 10)) * (9999 / 10000))
    let q := brownFrames amp channels n p.1 next
    (q.1, q.2.1, List.replicate channels (next * amp) ++ q.2.2)

/-- `BrownNoise::fill_buffer` (`sample_rate` ignored). -/
def BrownNoise.fillBuffer (b : BrownNoise) (channels frames : ℕ) : BrownNoise × List ℚ :=
  if !b.active then (b, List.replicate (frames * channels) 0)
  else
    let p := brownFrames b.amplitude channels frames b.rng b.previous_sample
    ({ b with rng := p.1, previous_sample := p.2.1 }, p.2.2)

/-- Run a `BrownNoise` generator through a list of
`(sample_rate, channels, frames)` calls, collecting each call's output. -/
def runBrown (b : BrownNoise) : List (ℚ × ℕ × ℕ) → List (List ℚ)
  | [] => []
  | (_, ch, fr) :: rest =>
    let p := b.fillBuffer ch fr
    p.2 :: runBrown p.1 rest

/-! ## Callback slot (`callback.rs`) -/

/-- `2^64`, the modulus of the `u64` frame clock (`fetch_add` wraps). -/
def U64MOD : ℕ := 18446744073709551616

/-- `CallbackSlot` from `callback.rs`: the atomic frame clock plus the
runtime configuration.  The held processor is not part of the state here;
`process_realtime` receives the processor's `process` behaviour as a
function argument, and the outcome of the non-blocking `try_lock` as an
explicit boolean. -/
structure CallbackSlot where
  sample_clock : ℕ
  sample_rate : ℚ
  channels : ℕ
deriving DecidableEq, Repr

namespace CallbackSlot

/-- `CallbackSlot::new` (the clock starts at `0`). -/
def new (sample_rate : ℚ) (channels : ℕ) : CallbackSlot :=
  { sample_clock := 0, sample_rate := sample_rate, channels := channels }

/-- `CallbackSlot::frame_count`. -/
def frameCount (s : CallbackSlot) : ℕ := s.sample_clock

/-- `CallbackSlot::playback_time`: `frames / sample_rate`. -/
def playbackTime (s : CallbackSlot) : ℚ := (s.sample_clock : ℚ) / s.sample_rate

/-- `CallbackSlot::process_realtime`.  `proc` is the held processor's
`process(output, sample_rate, channels, frames)` behaviour (returning the
buffer it leaves behind); `lockOk` is whether `try_lock` succeeded.
Returns the new slot, the output buffer, and the boolean result:
frame count `output.len() / channels`; if zero, return `false` untouched;
otherwise advance the clock by the frame count (wrapping `u64`), then
either delegate to the processor (`true`) or zero-fill (`false`). -/
def processRealtime (proc : List ℚ → ℚ → ℕ → ℕ → List ℚ) (lockOk : Bool)
    (slot : CallbackSlot) (output : List ℚ) : CallbackSlot × List ℚ × Bool :=
  let frames := output.length / slot.channels
  if frames = 0 then (slot, output, false)
  else
    let slot1 := { slot with sample_clock := (slot.sample_clock + frames) % U64MOD }
    if lockOk then
      (slot1, proc output slot.sample_rate slot.channels frames, true)
    else
      (slot1, List.replicate output.length 0, false)

end CallbackSlot

/-! ## Router and pan laws (`routing.rs`)

Pan gains use `cos`/`sin`, so this part of the model lives in `ℝ`.
A routed source's per-call `render` output is abstracted as the function
`source : channel → frame → ℝ` (the contents of the temporary per-channel
buffers the router allocates for it), which is exactly how `process`
consumes it. -/

/-- `PanLaw` from `routing.rs`. -/
inductive PanLaw where
  | Linear
  | EqualPower
deriving DecidableEq, Repr

/-- `Pan` from `routing.rs`: a bare pair of public fields, no constructor
logic and no clamping anywhere. -/
structure Pan where
  value : ℝ
  law : PanLaw

/-- `Pan::gains`: linear law `(0.5(1-v), 0.5(1+v))`; equal-power law
`(cos θ, sin θ)` with `θ = (v + 1)·π/4`. -/
noncomputable def Pan.gains (p : Pan) : ℝ × ℝ :=
  match p.law with
  | .Linear => (1 / 2 * (1 - p.value), 1 / 2 * (1 + p.value))
  | .EqualPower => (Real.cos ((p.value + 1) * (Real.pi / 4)),
                    Real.sin ((p.value + 1) * (Real.pi / 4)))

/-- `RoutedSource` from `routing.rs` (with the source's per-call render
output abstracted as a sample function). -/
structure RoutedSource where
  source : ℕ → ℕ → ℝ
  gain : ℝ
  pan : Pan
  bus : ℕ

/-- `Router` from `routing.rs`.  The per-call scratch and bus buffers are
zeroed/allocated afresh on every `process` call in the source, so they are
not state; `max_frames` only sizes the scratch allocation. -/
structure Router where
  sources : List RoutedSource
  channels : ℕ
  sample_rate : ℝ
  num_buses : ℕ

namespace Router

/-- `Router::new`: empty source list, `num_buses.max(1)`. -/
def new (channels : ℕ) (sample_rate : ℝ) (num_buses : ℕ) (max_frames : ℕ) : Router :=
  { sources := [], channels := channels, sample_rate := sample_rate,
    num_buses := max num_buses 1 }

/-- `Router::add_source`: appends a `RoutedSource` verbatim. -/
def addSource (r : Router) (source : ℕ → ℕ → ℝ) (gain : ℝ) (pan : Pan) (bus : ℕ) : Router :=
  { r with sources := r.sources ++ [⟨source, gain, pan, bus⟩] }

/-- `Router::clear_sources`. -/
def clearSources (r : Router) : Router := { r with sources := [] }

end Router

/-- `routed.bus.min(self.num_buses - 1)` — render-time bus clamping. -/
def clampedBus (num_buses bus : ℕ) : ℕ := min bus (num_buses - 1)

/-- One source's contribution to bus channel `c`, frame `i`, inside
`Router::process`: stereo (`channels == 2`) reads channel 0 of the rendered
source as mono, applies gain, and splits by the pan gains; any other
channel count applies gain per channel with no panning. -/
noncomputable def sourceContribution (channels : ℕ) (s : RoutedSource) (c i : ℕ) : ℝ :=
  if channels = 2 then
    (s.source 0 i * s.gain) * (if c = 0 then s.pan.gains.1 else s.pan.gains.2)
  else
    s.source c i * s.gain

/-- The bus buffer after the source loop of `Router::process`: bus `b`,
channel `c`, frame `i` accumulates every source whose clamped bus is `b`. -/
noncomputable def busSample (r : Router) (b c i : ℕ) : ℝ :=
  r.sources.foldl
    (fun acc s =>
      acc + (if clampedBus r.num_buses s.bus = b then sourceContribution r.channels s c i else 0))
    0

/-- The master scratch after the bus-summing loop of `Router::process`. -/
noncomputable def masterSample (r : Router) (c i : ℕ) : ℝ :=
  (List.range r.num_buses).foldl (fun acc b => acc + busSample r b c i) 0

/-- The interleaved output written by `Router::process`:
`output[i * channels + ch] = scratch[ch][i]`. -/
noncomputable def processOutput (r : Router) (j : ℕ) : ℝ :=
  masterSample r (j % r.channels) (j / r.channels)

/-- The spec's `pan_gain(source, c)`: left gain for channel 0, right gain
for channel 1. -/
noncomputable def specPanGain (s : RoutedSource) (c : ℕ) : ℝ :=
  if c = 0 then s.pan.gains.1 else s.pan.gains.2

/-- C4's formula exactly as the spec words it for the stereo case:
"the sum over all buses of the sum over the sources assigned (after
clamping) to that bus of `rendered_sample(source, i, c) × gain(source) ×
pan_gain(source, c)`". -/
noncomputable def specStereoMix (r : Router) (i c : ℕ) : ℝ :=
  ((List.range r.num_buses).map (fun b =>
    ((r.sources.filter (fun s => clampedBus r.num_buses s.bus = b)).map
      (fun s => s.source c i * s.gain * specPanGain s c)).sum)).sum

/-- The amended C4 formula: identical except that the rendered sample is
read from channel 0 of the source (the mono fold the stereo path performs). -/
noncomputable def specStereoMixMono (r : Router) (i c : ℕ) : ℝ :=
  ((List.range r.num_buses).map (fun b =>
    ((r.sources.filter (fun s => clampedBus r.num_buses s.bus = b)).map
      (fun s => s.source 0 i * s.gain * specPanGain s c)).sum)).sum

/-- The C4 counterexample router: stereo, one bus, a single source on
bus 0 with gain `1` and centred linear pan whose rendered buffers hold `0`
on channel 0 and `1` on channel 1. -/
noncomputable def cexRouter : Router :=
  (Router.new 2 48000 1 64).addSource (fun c _ => if c = 0 then 0 else 1) 1 ⟨0, .Linear⟩ 0

/-- The reachable-state invariant of `ADSREnvelope` that the claimed value
bound rests on: the current value and the sustain level lie in `[0,1]`,
and in the `Release` and `Finished` states the `note_on` flag is down
(those states are only entered through `note_off`). -/
def EnvInv (e : ADSREnvelope) : Prop :=
  0 ≤ e.current_value ∧ e.current_value ≤ 1
  ∧ 0 ≤ e.sustain_level ∧ e.sustain_level ≤ 1
  ∧ ((e.state = .Release ∨ e.state = .Finished) → e.note_on = false)

/-- C3, counterexample: in the quick/1000 Hz scenario the release values
returned after `note_off` do NOT decrease linearly.  The first three release
calls return `v1 = 0.7`, `v2 = 0.7·(299/300)` and
`v3 = 0.7·(299/300)·(298/300)`; their successive differences differ
(`v1 - v2 ≠ v2 - v3`), which no linear (affine-in-call-index) ramp allows,
and `v3` also differs from the linear predictions `0.7·(1 - 2/300)` and
`0.7·(1 - 3/300)`.  The cause: `process_sample` re-reads `start_level` from
`current_value` on every release sample, compounding the factors. -/
theorem adsr_release_not_linear_cex :
    ¬((adsrRel.getValues 1000 1).current_value - (adsrRel.getValues 1000 2).current_value
        = (adsrRel.getValues 1000 2).current_value - (adsrRel.getValues 1000 3).current_value)
    ∧ (adsrRel.getValues 1000 3).current_value ≠ 7 / 10 * (1 - 2 / 300)
    ∧ (adsrRel.getValues 1000 3).current_value ≠ 7 / 10 * (1 - 3 / 300) := by
  decide!

/-- C3 (amended): for the `quick` preset (attack 0.01 s, decay 0.1 s,
sustain 0.7, release 0.3 s) driven at 1000 Hz: after `note_on`, exactly 10
`get_value` calls reach `Decay` with value `1.0`; 100 further calls reach
value `0.7` and `Sustain`; after `note_off` the first release call returns
the value current at note-off (`0.7`) and each further release call
multiplies the previous value by `1 - current_sample/release_samples`
(a monotonically non-increasing, multiplicative — not linear — decay
toward `0`); the state becomes `Finished` exactly at the 300th release
call, where the value is exactly `0`, and every later call returns `0`. -/
theorem adsr_quick_schedule_amended :
    ((adsrQuickOn.getValues 1000 10).state = .Decay
      ∧ (adsrQuickOn.getValues 1000 10).current_value = 1)
    ∧ ((adsrQuickOn.getValues 1000 110).state = .Sustain
      ∧ (adsrQuickOn.getValues 1000 110).current_value = 7 / 10)
    ∧ (adsrRel.getValue 1000).2 = 7 / 10
    ∧ (∀ e : ADSREnvelope, e.state = .Release → e.note_off_triggered = true →
        e.current_sample + 1 < e.release_samples →
        (e.processSample.current_value
            = e.current_value * (1 - (e.current_sample : ℚ) / (e.release_samples : ℚ))
          ∧ e.processSample.state = .Release
          ∧ e.processSample.current_sample = e.current_sample + 1
          ∧ (0 ≤ e.current_value → e.processSample.current_value ≤ e.current_value)))
    ∧ ((adsrRel.getValues 1000 299).state = .Release
      ∧ (adsrRel.getValues 1000 300).state = .Finished
      ∧ (adsrRel.getValues 1000 300).current_value = 0)
    ∧ (∀ (e : ADSREnvelope) (rate : ℚ), e.state = .Finished →
        (e.getValue rate).2 = 0 ∧ (e.getValue rate).1.state = .Finished) := by
  refine ⟨by decide!, by decide!, by decide!, ?_, by decide!, ?_⟩
  · intro e h1 h2 h3
    have hrs : e.release_samples ≠ 0 := by omega
    have hge : ¬(e.current_sample + 1 ≥ e.release_samples) := by omega
    refine ⟨?_, ?_, ?_, fun hv => ?_⟩ <;>
      simp only [ADSREnvelope.processSample, h1, h2, if_neg hrs, if_neg hge, if_pos, if_true]
    have hd : (0 : ℚ) ≤ (e.current_sample : ℚ) / (e.release_samples : ℚ) :=
      div_nonneg (Nat.cast_nonneg _) (Nat.cast_nonneg _)
    have hone : (1 : ℚ) - (e.current_sample : ℚ) / (e.release_samples : ℚ) ≤ 1 := by linarith
    simpa using mul_le_of_le_one_right hv hone
  · intro e rate h
    unfold ADSREnvelope.getValue
    split
    · simp [ADSREnvelope.processSample, ADSREnvelope.updateSampleCounts, h]
    · simp [ADSREnvelope.processSample, h]

/-- Witness for the amended C3 theorem: instantiates its conditional parts
at the concrete release-phase envelope `adsrRelWit` (5 of 300 release
samples done, value `1/2`) and at a concrete `Finished` envelope. -/
theorem adsr_quick_schedule_amended_witness :
    (adsrQuickOn.getValues 1000 10).state = .Decay
    ∧ adsrRelWit.processSample.current_value = 1 / 2 * (1 - (5 : ℚ) / 300)
    ∧ adsrRelWit.processSample.state = .Release
    ∧ ((adsrRel.getValues 1000 300).getValue 1000).2 = 0 := by
  obtain ⟨h1, _, _, h4, h5, h6⟩ := adsr_quick_schedule_amended
  have hw := h4 adsrRelWit (by decide!) (by decide!) (by decide!)
  have hf := h6 (adsrRel.getValues 1000 300) 1000 (by decide!)
  exact ⟨h1.1, by simpa [adsrRelWit] using hw.1, hw.2.1, hf.1⟩

/-! ## Helper lemmas -/

/-- `clampQ lo hi` lands in `[lo, hi]` whenever `lo ≤ hi`. -/
theorem clampQ_mem (lo hi x : ℚ) (h : lo ≤ hi) : lo ≤ clampQ lo hi x ∧ clampQ lo hi x ≤ hi := by
  unfold clampQ
  split_ifs <;> constructor <;> linarith

/-- `clampQ lo hi` is the identity on `[lo, hi]`. -/
theorem clampQ_of_mem (lo hi x : ℚ) (h1 : lo ≤ x) (h2 : x ≤ hi) : clampQ lo hi x = x := by
  unfold clampQ
  split_ifs <;> linarith

/-- `update_sample_counts` touches only the derived counts, so it
preserves `EnvInv`. -/
theorem envInv_updateSampleCounts (e : ADSREnvelope) (h : EnvInv e) :
    EnvInv e.updateSampleCounts := by
  simpa [EnvInv, ADSREnvelope.updateSampleCounts] using h

/-- One `process_sample` step preserves `EnvInv`: every branch either
assigns a constant in `[0,1]`, a ramp value trapped in `[0,1]` by the
branch guards, or the (clamped) sustain level. -/
theorem envInv_processSample (e : ADSREnvelope) (h : EnvInv e) : EnvInv e.processSample := by
  obtain ⟨h0, h1, h2, h3, h4⟩ := h
  cases hst : e.state <;>
    simp only [ADSREnvelope.processSample, hst]
  case Idle => exact ⟨le_refl 0, by norm_num, h2, h3, by simp [hst]⟩
  case Attack =>
    split_ifs with ha hb
    · exact ⟨by norm_num, by norm_num, h2, h3, by simp⟩
    · exact ⟨by norm_num, by norm_num, h2, h3, by simp⟩
    · have hpos : (0 : ℚ) < (e.attack_samples : ℚ) := by
        exact_mod_cast Nat.pos_of_ne_zero ha
      have hle : (e.current_sample : ℚ) ≤ (e.attack_samples : ℚ) := by
        exact_mod_cast Nat.le_of_lt (by omega)
      refine ⟨div_nonneg (Nat.cast_nonneg _) (Nat.cast_nonneg _), ?_, h2, h3, by simp [hst]⟩
      exact div_le_one_of_le₀ hle (le_of_lt hpos)
  case Decay =>
    split_ifs with ha hb
    · exact ⟨h2, h3, h2, h3, by simp⟩
    · exact ⟨h2, h3, h2, h3, by simp⟩
    · have hpos : (0 : ℚ) < (e.decay_samples : ℚ) := by
        exact_mod_cast Nat.pos_of_ne_zero ha
      have hd0 : (0 : ℚ) ≤ (e.current_sample : ℚ) / (e.decay_samples : ℚ) :=
        div_nonneg (Nat.cast_nonneg _) (Nat.cast_nonneg _)
      have hd1 : (e.current_sample : ℚ) / (e.decay_samples : ℚ) ≤ 1 := by
        refine div_le_one_of_le₀ ?_ (le_of_lt hpos)
        exact_mod_cast Nat.le_of_lt (by omega)
      refine ⟨by nlinarith, by nlinarith, h2, h3, by simp [hst]⟩
  case Sustain => exact ⟨h2, h3, h2, h3, by simp [hst]⟩
  case Release =>
    have hno : e.note_on = false := h4 (Or.inl hst)
    split_ifs with ha hb hc
    · exact ⟨le_refl 0, by norm_num, h2, h3, fun _ => hno⟩
    · exact ⟨le_refl 0, by norm_num, h2, h3, fun _ => hno⟩
    all_goals
      have hpos : (0 : ℚ) < (e.release_samples : ℚ) := by
        exact_mod_cast Nat.pos_of_ne_zero ha
      have hd0 : (0 : ℚ) ≤ (e.current_sample : ℚ) / (e.release_samples : ℚ) :=
        div_nonneg (Nat.cast_nonneg _) (Nat.cast_nonneg _)
      have hd1 : (e.current_sample : ℚ) / (e.release_samples : ℚ) ≤ 1 := by
        refine div_le_one_of_le₀ ?_ (le_of_lt hpos)
        exact_mod_cast Nat.le_of_lt (by omega)
      exact ⟨by nlinarith, by nlinarith, h2, h3, fun _ => hno⟩
  case Finished =>
    exact ⟨le_refl 0, by norm_num, h2, h3, fun _ => h4 (Or.inr hst)⟩

/-- A freshly constructed envelope satisfies `EnvInv` (value `0`, clamped
sustain level, `Idle`). -/
theorem envInv_new (a d s r : ℚ) : EnvInv (ADSREnvelope.new a d s r) := by
  have hc := clampQ_mem 0 1 s (by norm_num)
  refine ⟨le_refl 0, by norm_num [ADSREnvelope.new], hc.1, hc.2, by simp [ADSREnvelope.new]⟩

/-- `get_value` preserves `EnvInv` (rate refresh, then one step). -/
theorem envInv_getValue (e : ADSREnvelope) (rate : ℚ) (h : EnvInv e) :
    EnvInv (e.getValue rate).1 := by
  unfold ADSREnvelope.getValue
  apply envInv_processSample
  split
  · exact envInv_updateSampleCounts _ (by simpa [EnvInv] using h)
  · exact h

/-- Every public envelope operation preserves `EnvInv`. -/
theorem envInv_applyOp (e : ADSREnvelope) (op : EnvOp) (h : EnvInv e) :
    EnvInv (applyEnvOp e op) := by
  obtain ⟨h0, h1, h2, h3, h4⟩ := h
  cases op with
  | noteOn =>
    simp only [applyEnvOp, ADSREnvelope.noteOn]
    exact envInv_updateSampleCounts _ ⟨h0, h1, h2, h3, by simp⟩
  | noteOff =>
    simp only [applyEnvOp, ADSREnvelope.noteOff]
    split
    · exact ⟨h0, h1, h2, h3, fun _ => rfl⟩
    · exact ⟨h0, h1, h2, h3, h4⟩
  | reset =>
    simp only [applyEnvOp, ADSREnvelope.reset]
    exact ⟨le_refl 0, by norm_num, h2, h3, by simp⟩
  | setAttackTime t =>
    simp only [applyEnvOp, ADSREnvelope.setAttackTime]
    exact envInv_updateSampleCounts _ ⟨h0, h1, h2, h3, h4⟩
  | setDecayTime t =>
    simp only [applyEnvOp, ADSREnvelope.setDecayTime]
    exact envInv_updateSampleCounts _ ⟨h0, h1, h2, h3, h4⟩
  | setSustainLevel l =>
    have hc := clampQ_mem 0 1 l (by norm_num)
    simp only [applyEnvOp, ADSREnvelope.setSustainLevel]
    exact ⟨h0, h1, hc.1, hc.2, h4⟩
  | setReleaseTime t =>
    simp only [applyEnvOp, ADSREnvelope.setReleaseTime]
    exact envInv_updateSampleCounts _ ⟨h0, h1, h2, h3, h4⟩
  | getValue rate =>
    simp only [applyEnvOp]
    exact envInv_getValue e rate ⟨h0, h1, h2, h3, h4⟩

/-- `EnvInv` is preserved by arbitrary operation sequences. -/
theorem envInv_applyOps (e : ADSREnvelope) (ops : List EnvOp) (h : EnvInv e) :
    EnvInv (applyEnvOps e ops) := by
  induction ops generalizing e with
  | nil => exact h
  | cons op rest ih => exact ih _ (envInv_applyOp e op h)

/-- In the `Finished` state, `get_value` returns `0` and stays `Finished`. -/
theorem getValue_finished (e : ADSREnvelope) (rate : ℚ) (h : e.state = .Finished) :
    (e.getValue rate).2 = 0 ∧ (e.getValue rate).1.state = .Finished := by
  unfold ADSREnvelope.getValue
  split
  · simp [ADSREnvelope.processSample, ADSREnvelope.updateSampleCounts, h]
  · simp [ADSREnvelope.processSample, h]

/-- Any single operation other than `note_on` and `reset` keeps a
`Finished` envelope `Finished` (for reachable states, where `note_on` is
down so `note_off` is a no-op). -/
theorem finished_persistOp (e : ADSREnvelope) (op : EnvOp) (h : EnvInv e)
    (hf : e.state = .Finished) (h1 : op ≠ EnvOp.noteOn) (h2 : op ≠ EnvOp.reset) :
    (applyEnvOp e op).state = .Finished := by
  have hno : e.note_on = false := h.2.2.2.2 (Or.inr hf)
  cases op with
  | noteOn => exact absurd rfl h1
  | reset => exact absurd rfl h2
  | noteOff =>
    simp only [applyEnvOp, ADSREnvelope.noteOff, hno, Bool.false_and, if_neg]
    exact hf
  | setAttackTime t =>
    simpa [applyEnvOp, ADSREnvelope.setAttackTime, ADSREnvelope.updateSampleCounts] using hf
  | setDecayTime t =>
    simpa [applyEnvOp, ADSREnvelope.setDecayTime, ADSREnvelope.updateSampleCounts] using hf
  | setSustainLevel l =>
    simpa [applyEnvOp, ADSREnvelope.setSustainLevel] using hf
  | setReleaseTime t =>
    simpa [applyEnvOp, ADSREnvelope.setReleaseTime, ADSREnvelope.updateSampleCounts] using hf
  | getValue rate => exact (getValue_finished e rate hf).2

/-- A `Finished` envelope stays `Finished` under any sequence of operations
containing neither `note_on` nor `reset`. -/
theorem finished_persistOps (e : ADSREnvelope) (ops : List EnvOp) (h : EnvInv e)
    (hf : e.state = .Finished) (hops : ∀ op ∈ ops, op ≠ EnvOp.noteOn ∧ op ≠ EnvOp.reset) :
    (applyEnvOps e ops).state = .Finished := by
  induction ops generalizing e with
  | nil => exact hf
  | cons op rest ih =>
    have hop := hops op (by simp)
    exact ih _ (envInv_applyOp e op h) (finished_persistOp e op h hf hop.1 hop.2)
      (fun o ho => hops o (by simp [ho]))

/-- `normalize_phase` always lands in `[0, 1)` (it is `Int.fract`). -/
theorem normalize_phase_mem (p : ℚ) : 0 ≤ normalize_phase p ∧ normalize_phase p < 1 :=
  ⟨Int.fract_nonneg p, Int.fract_lt_one p⟩

/-- Every `Oscillator` operation keeps the stored phase in `[0, 1)`: each
phase write is either `0` or a `normalize_phase` result. -/
theorem osc_applyOp_phase (o : Oscillator) (op : OscOp) (h0 : 0 ≤ o.phase) (h1 : o.phase < 1) :
    0 ≤ (applyOscOp o op).phase ∧ (applyOscOp o op).phase < 1 := by
  cases op with
  | nextSample rate => exact normalize_phase_mem _
  | fillBuffer rate ch fr =>
    simp only [applyOscOp, Oscillator.fillBuffer]
    split
    · exact ⟨h0, h1⟩
    · exact normalize_phase_mem _
  | setWaveform w => exact ⟨h0, h1⟩
  | setFrequency f => exact ⟨h0, h1⟩
  | setAmplitude a => exact ⟨h0, h1⟩
  | setPhase p => exact normalize_phase_mem _
  | setInterpolation b => exact ⟨h0, h1⟩
  | start => exact ⟨h0, h1⟩
  | stop => exact ⟨h0, h1⟩
  | toggle => exact ⟨h0, h1⟩
  | reset => exact ⟨le_refl 0, by norm_num [applyOscOp, Oscillator.reset]⟩

/-- Every `SineOscillator` operation keeps the stored phase in `[0, 1)`. -/
theorem sine_applyOp_phase (s : SineOscillator) (op : SineOp)
    (h0 : 0 ≤ s.phase) (h1 : s.phase < 1) :
    0 ≤ (applySineOp s op).phase ∧ (applySineOp s op).phase < 1 := by
  cases op with
  | fillBuffer rate ch fr =>
    simp only [applySineOp, SineOscillator.fillBuffer]
    split
    · exact ⟨h0, h1⟩
    · exact normalize_phase_mem _
  | setAmplitude a => exact ⟨h0, h1⟩
  | reset => exact ⟨le_refl 0, by norm_num [applySineOp, SineOscillator.reset]⟩

/-- Left fold of accumulation is the initial value plus the mapped sum. -/
theorem foldl_add_eq_sum {α : Type} (l : List α) (f : α → ℝ) (a : ℝ) :
    l.foldl (fun acc x => acc + f x) a = a + (l.map f).sum := by
  induction l generalizing a with
  | nil => simp
  | cons x xs ih => simp [ih, add_assoc]

/-- A sum of guarded terms is the sum over the filtered list. -/
theorem sum_map_ite_eq_filter {α : Type} (l : List α) (p : α → Prop) [DecidablePred p]
    (f : α → ℝ) :
    (l.map (fun x => if p x then f x else 0)).sum = ((l.filter (fun x => p x)).map f).sum := by
  induction l with
  | nil => simp
  | cons x xs ih =>
    by_cases hx : p x <;> simp [hx, ih]

/-! ## Claim theorems -/

/-- C6, counterexample: once `Finished`, the value does NOT stay `0` until
`reset()` — `note_on` also leaves `Finished`.  Concretely: the envelope
`new(0, 0, 0.5, 0)` after `note_on`, `note_off`, `get_value(1000)` is
`Finished`; one further `note_on` (no `reset` anywhere) makes the next
`get_value` return `1`, not `0`. -/
theorem adsr_finished_retrigger_cex :
    (applyEnvOps (ADSREnvelope.new 0 0 (1 / 2) 0)
        [EnvOp.noteOn, EnvOp.noteOff, EnvOp.getValue 1000]).state = .Finished
    ∧ ((applyEnvOps (ADSREnvelope.new 0 0 (1 / 2) 0)
        [EnvOp.noteOn, EnvOp.noteOff, EnvOp.getValue 1000, EnvOp.noteOn]).getValue 1000).2 = 1 := by
  decide!

/-- C6 (amended): for every envelope built by `new` and every sequence of
`note_on`, `note_off`, parameter-setter and `get_value` calls (with
arbitrary, possibly changing, sample rates), the value returned by
`get_value` lies in `[0, 1]`; and once the state is `Finished`, every
`get_value` call returns `0` until `reset()` or `note_on()` is called
(`note_on` retriggers the envelope out of `Finished`). -/
theorem adsr_value_bounds_amended :
    (∀ (a d s r rate : ℚ) (ops : List EnvOp),
        0 ≤ ((applyEnvOps (ADSREnvelope.new a d s r) ops).getValue rate).2
        ∧ ((applyEnvOps (ADSREnvelope.new a d s r) ops).getValue rate).2 ≤ 1)
    ∧ (∀ (a d s r rate : ℚ) (ops1 ops2 : List EnvOp),
        (applyEnvOps (ADSREnvelope.new a d s r) ops1).state = .Finished →
        (∀ op ∈ ops2, op ≠ EnvOp.noteOn ∧ op ≠ EnvOp.reset) →
        ((applyEnvOps (applyEnvOps (ADSREnvelope.new a d s r) ops1) ops2).getValue rate).2 = 0) := by
  constructor
  · intro a d s r rate ops
    have hinv := envInv_getValue _ rate (envInv_applyOps _ ops (envInv_new a d s r))
    exact ⟨hinv.1, hinv.2.1⟩
  · intro a d s r rate ops1 ops2 hf hops
    have hinv := envInv_applyOps _ ops1 (envInv_new a d s r)
    have hfin := finished_persistOps _ ops2 hinv hf hops
    exact (getValue_finished _ rate hfin).1

/-- Witness for the amended C6 theorem: a concrete bounded `get_value`
after a short `quick`-style run, and a concrete `0` readback after
reaching `Finished` and then applying only a sustain change and
`get_value` calls. -/
theorem adsr_value_bounds_amended_witness :
    (0 ≤ ((applyEnvOps (ADSREnvelope.new (1 / 100) (1 / 10) (7 / 10) (3 / 10))
            [EnvOp.noteOn, EnvOp.getValue 1000]).getValue 1000).2
      ∧ ((applyEnvOps (ADSREnvelope.new (1 / 100) (1 / 10) (7 / 10) (3 / 10))
            [EnvOp.noteOn, EnvOp.getValue 1000]).getValue 1000).2 ≤ 1)
    ∧ ((applyEnvOps (applyEnvOps (ADSREnvelope.new 0 0 (1 / 2) 0)
            [EnvOp.noteOn, EnvOp.noteOff, EnvOp.getValue 1000])
          [EnvOp.setSustainLevel (3 / 4), EnvOp.getValue 500]).getValue 800).2 = 0 := by
  refine ⟨adsr_value_bounds_amended.1 (1 / 100) (1 / 10) (7 / 10) (3 / 10) 1000
      [EnvOp.noteOn, EnvOp.getValue 1000],
    adsr_value_bounds_amended.2 0 0 (1 / 2) 0 800
      [EnvOp.noteOn, EnvOp.noteOff, EnvOp.getValue 1000]
      [EnvOp.setSustainLevel (3 / 4), EnvOp.getValue 500] (by decide!) (by decide!)⟩

/-- C5: for every `Oscillator` and `SineOscillator`, after any finite
sequence of `fill_buffer` / `next_sample` calls (and any of the public
setters, with any frequency and sample-rate values), the stored phase
read by `current_phase()` lies in `[0, 1)`.  Constructors start the phase
at `0`, `with_phase` normalizes, and every render call stores a
`normalize_phase` result. -/
theorem oscillator_phase_in_unit_interval :
    (∀ (w : WaveformType) (f : ℚ), (Oscillator.new w f).phase = 0)
    ∧ (∀ (o : Oscillator) (ops : List OscOp), 0 ≤ o.phase → o.phase < 1 →
        0 ≤ (applyOscOps o ops).phase ∧ (applyOscOps o ops).phase < 1)
    ∧ (∀ (f : ℚ), (SineOscillator.new f).phase = 0)
    ∧ (∀ (s : SineOscillator) (ops : List SineOp), 0 ≤ s.phase → s.phase < 1 →
        0 ≤ (applySineOps s ops).phase ∧ (applySineOps s ops).phase < 1) := by
  refine ⟨fun w f => rfl, ?_, fun f => rfl, ?_⟩
  · intro o ops
    induction ops generalizing o with
    | nil => exact fun h0 h1 => ⟨h0, h1⟩
    | cons op rest ih =>
      intro h0 h1
      have h := osc_applyOp_phase o op h0 h1
      exact ih _ h.1 h.2
  · intro s ops
    induction ops generalizing s with
    | nil => exact fun h0 h1 => ⟨h0, h1⟩
    | cons op rest ih =>
      intro h0 h1
      have h := sine_applyOp_phase s op h0 h1
      exact ih _ h.1 h.2

/-- Witness for C5: a concrete sine oscillator run (including a negative
frequency) and a concrete `SineOscillator` fill. -/
theorem oscillator_phase_in_unit_interval_witness :
    (0 ≤ (applyOscOps (Oscillator.new .Sine 440)
          [OscOp.nextSample 48000, OscOp.setFrequency (-7), OscOp.fillBuffer 48000 2 64]).phase
      ∧ (applyOscOps (Oscillator.new .Sine 440)
          [OscOp.nextSample 48000, OscOp.setFrequency (-7), OscOp.fillBuffer 48000 2 64]).phase < 1)
    ∧ (0 ≤ (applySineOps (SineOscillator.new 440) [SineOp.fillBuffer 44100 2 32]).phase
      ∧ (applySineOps (SineOscillator.new 440) [SineOp.fillBuffer 44100 2 32]).phase < 1) := by
  refine ⟨oscillator_phase_in_unit_interval.2.1 (Oscillator.new .Sine 440) _ ?_ ?_,
    oscillator_phase_in_unit_interval.2.2.2 (SineOscillator.new 440) _ ?_ ?_⟩ <;>
    norm_num [Oscillator.new, SineOscillator.new]

/-- C1: when the output length is a nonzero multiple of the configured
channel count, `process_realtime` either hands the WHOLE buffer to the
held processor's `process` and returns `true`, or writes exact `0.0` to
every element (keeping the length) and returns `false` — never a partial
write. -/
theorem callback_process_realtime_all_or_silence
    (proc : List ℚ → ℚ → ℕ → ℕ → List ℚ) (lockOk : Bool) (slot : CallbackSlot)
    (output : List ℚ) (k : ℕ) (hch : 0 < slot.channels)
    (hlen : output.length = k * slot.channels) (hk : 0 < k) :
    ((CallbackSlot.processRealtime proc lockOk slot output).2.2 = true
      ∧ (CallbackSlot.processRealtime proc lockOk slot output).2.1
          = proc output slot.sample_rate slot.channels (output.length / slot.channels))
    ∨ ((CallbackSlot.processRealtime proc lockOk slot output).2.2 = false
      ∧ (CallbackSlot.processRealtime proc lockOk slot output).2.1.length = output.length
      ∧ ∀ x ∈ (CallbackSlot.processRealtime proc lockOk slot output).2.1, x = 0) := by
  have hfr : output.length / slot.channels = k := by
    rw [hlen]; exact Nat.mul_div_cancel _ hch
  have hne : ¬(output.length / slot.channels = 0) := by omega
  cases lockOk with
  | true =>
    left
    constructor <;> simp [CallbackSlot.processRealtime, hne]
  | false =>
    right
    refine ⟨by simp [CallbackSlot.processRealtime, hne],
      by simp [CallbackSlot.processRealtime, hne], fun x hx => ?_⟩
    simp [CallbackSlot.processRealtime, hne] at hx
    exact hx.2

/-- Witness for C1: a stereo slot, a 4-sample (2-frame) buffer, and a
failed lock; the hypotheses are discharged at these concrete values. -/
theorem callback_process_realtime_all_or_silence_witness :
    0 < (CallbackSlot.new 48000 2).channels
    ∧ (([1, 2, 3, 4] : List ℚ).length = 2 * (CallbackSlot.new 48000 2).channels ∧ 0 < 2)
    ∧ (((CallbackSlot.processRealtime (fun o _ _ _ => o) false (CallbackSlot.new 48000 2)
            [1, 2, 3, 4]).2.2 = true
        ∧ (CallbackSlot.processRealtime (fun o _ _ _ => o) false (CallbackSlot.new 48000 2)
            [1, 2, 3, 4]).2.1
            = (fun (o : List ℚ) (_ : ℚ) (_ : ℕ) (_ : ℕ) => o) [1, 2, 3, 4]
                (CallbackSlot.new 48000 2).sample_rate (CallbackSlot.new 48000 2).channels
                (([1, 2, 3, 4] : List ℚ).length / (CallbackSlot.new 48000 2).channels))
      ∨ ((CallbackSlot.processRealtime (fun o _ _ _ => o) false (CallbackSlot.new 48000 2)
            [1, 2, 3, 4]).2.2 = false
        ∧ (CallbackSlot.processRealtime (fun o _ _ _ => o) false (CallbackSlot.new 48000 2)
            [1, 2, 3, 4]).2.1.length = ([1, 2, 3, 4] : List ℚ).length
        ∧ ∀ x ∈ (CallbackSlot.processRealtime (fun o _ _ _ => o) false (CallbackSlot.new 48000 2)
            [1, 2, 3, 4]).2.1, x = 0)) :=
  ⟨by decide, ⟨by decide, by decide⟩,
    callback_process_realtime_all_or_silence (fun o _ _ _ => o) false (CallbackSlot.new 48000 2)
      [1, 2, 3, 4] 2 (by decide) (by decide) (by decide)⟩

/-- C2: when `output.len() / channels` is zero the call is a no-op (slot,
buffer and result `false` all unchanged); otherwise the frame counter read
by `frame_count()` advances by exactly `output.len() / channels` (as `u64`
arithmetic; exactly, whenever the `u64` clock does not wrap), regardless
of the lock outcome. -/
theorem callback_frame_clock_advance
    (proc : List ℚ → ℚ → ℕ → ℕ → List ℚ) (lockOk : Bool) (slot : CallbackSlot)
    (output : List ℚ) :
    (output.length / slot.channels = 0 →
      CallbackSlot.processRealtime proc lockOk slot output = (slot, output, false))
    ∧ (output.length / slot.channels ≠ 0 →
        (CallbackSlot.processRealtime proc lockOk slot output).1.frameCount
            = (slot.frameCount + output.length / slot.channels) % U64MOD
        ∧ (slot.frameCount + output.length / slot.channels < U64MOD →
            (CallbackSlot.processRealtime proc lockOk slot output).1.frameCount
              = slot.frameCount + output.length / slot.channels)) := by
  constructor
  · intro h
    simp [CallbackSlot.processRealtime, h]
  · intro h
    constructor
    · cases lockOk <;> simp [CallbackSlot.processRealtime, h, CallbackSlot.frameCount]
    · intro hlt
      cases lockOk <;>
        (simp [CallbackSlot.processRealtime, h, CallbackSlot.frameCount];
          exact Nat.mod_eq_of_lt hlt)

/-- Witness for C2: the no-op branch on a 1-sample stereo buffer (0 frames)
and the exact advance branch on a 2-frame buffer from clock `7`. -/
theorem callback_frame_clock_advance_witness :
    CallbackSlot.processRealtime (fun o _ _ _ => o) true (CallbackSlot.new 48000 2) [1]
        = (CallbackSlot.new 48000 2, [1], false)
    ∧ (CallbackSlot.processRealtime (fun o _ _ _ => o) true
        { sample_clock := 7, sample_rate := 48000, channels := 2 } [1, 2, 3, 4]).1.frameCount
        = 7 + ([1, 2, 3, 4] : List ℚ).length / 2 :=
  ⟨(callback_frame_clock_advance (fun o _ _ _ => o) true (CallbackSlot.new 48000 2) [1]).1
      (by decide),
    ((callback_frame_clock_advance (fun o _ _ _ => o) true
        { sample_clock := 7, sample_rate := 48000, channels := 2 } [1, 2, 3, 4]).2
      (by decide)).2 (by decide)⟩

/-- C9: two noise generators of the same kind constructed with the same
seed produce identical output sequences over any list of `fill_buffer`
calls with identical arguments.  In this embedding the generators are
pure state machines whose entire state is the modelled fields, so two
equal-seeded runs are literally the same computation. -/
theorem noise_seed_determinism (seed : ℕ) (calls : List (ℚ × ℕ × ℕ)) :
    runWhite (WhiteNoise.withSeed seed) calls = runWhite (WhiteNoise.withSeed seed) calls
    ∧ runBrown (BrownNoise.withSeed seed) calls = runBrown (BrownNoise.withSeed seed) calls :=
  ⟨rfl, rfl⟩

/-- C10: seed `0` yields exactly the stream of seed `1`, for
`WhiteNoise::with_seed`, `BrownNoise::with_seed` and `set_seed` alike,
because `FastRng::new` replaces a zero seed by `1`. -/
theorem noise_zero_seed_equals_one (calls : List (ℚ × ℕ × ℕ)) (w : WhiteNoise) (b : BrownNoise) :
    FastRng.new 0 = FastRng.new 1
    ∧ runWhite (WhiteNoise.withSeed 0) calls = runWhite (WhiteNoise.withSeed 1) calls
    ∧ runBrown (BrownNoise.withSeed 0) calls = runBrown (BrownNoise.withSeed 1) calls
    ∧ runWhite (w.setSeed 0) calls = runWhite (w.setSeed 1) calls
    ∧ runBrown (b.setSeed 0) calls = runBrown (b.setSeed 1) calls :=
  ⟨rfl, rfl, rfl, rfl, rfl⟩

/-- C7: for every pan value `v ∈ [-1, 1]`, the equal-power law satisfies
`left² + right² = 1` (exactly, in the real-number model — the identity is
`cos² + sin²`), and the linear law satisfies `left + right = 1`. -/
theorem pan_gain_law_identities (v : ℝ) (h1 : -1 ≤ v) (h2 : v ≤ 1) :
    (Pan.gains ⟨v, .EqualPower⟩).1 ^ 2 + (Pan.gains ⟨v, .EqualPower⟩).2 ^ 2 = 1
    ∧ (Pan.gains ⟨v, .Linear⟩).1 + (Pan.gains ⟨v, .Linear⟩).2 = 1 := by
  constructor
  · simp only [Pan.gains]
    exact Real.cos_sq_add_sin_sq _
  · simp only [Pan.gains]
    ring

/-- Witness for C7 at centre pan `v = 0`. -/
theorem pan_gain_law_identities_witness :
    ((-1 : ℝ) ≤ 0 ∧ (0 : ℝ) ≤ 1)
    ∧ (Pan.gains ⟨0, .EqualPower⟩).1 ^ 2 + (Pan.gains ⟨0, .EqualPower⟩).2 ^ 2 = 1
    ∧ (Pan.gains ⟨0, .Linear⟩).1 + (Pan.gains ⟨0, .Linear⟩).2 = 1 :=
  ⟨⟨by norm_num, by norm_num⟩,
    (pan_gain_law_identities 0 (by norm_num) (by norm_num)).1,
    (pan_gain_law_identities 0 (by norm_num) (by norm_num)).2⟩

/-- C8, counterexample: a pan position is NOT clamped at assignment.
`add_source` with pan value `2` stores `2` verbatim (`Pan` is a bare pair
of public fields and no code path clamps it), and `2 ∉ [-1, 1]`. -/
theorem pan_value_unclamped_cex :
    (((Router.new 2 48000 1 64).addSource (fun _ _ => 0) 1 ⟨2, .Linear⟩ 0).sources.map
        fun s => s.pan.value) = [2]
    ∧ ¬((2 : ℝ) ≤ 1) := by
  constructor
  · simp [Router.addSource, Router.new]
  · norm_num

/-- C8 (amended): oscillator and noise amplitudes and the envelope sustain
level are clamped into `[0, 1]` at the point of assignment (bounds always
hold, and in-range values are stored unchanged); the pan position, by
contrast, is stored verbatim by `add_source` — no assignment clamps it
into `[-1, 1]`. -/
theorem param_clamping_amended :
    (∀ (o : Oscillator) (a : ℚ),
        0 ≤ (o.setAmplitude a).amplitude ∧ (o.setAmplitude a).amplitude ≤ 1
        ∧ (0 ≤ a → a ≤ 1 → (o.setAmplitude a).amplitude = a))
    ∧ (∀ (s : SineOscillator) (a : ℚ),
        0 ≤ (s.setAmplitude a).amplitude ∧ (s.setAmplitude a).amplitude ≤ 1
        ∧ (0 ≤ a → a ≤ 1 → (s.setAmplitude a).amplitude = a))
    ∧ (∀ (w : WhiteNoise) (a : ℚ),
        0 ≤ (w.setAmplitude a).amplitude ∧ (w.setAmplitude a).amplitude ≤ 1
        ∧ (0 ≤ a → a ≤ 1 → (w.setAmplitude a).amplitude = a))
    ∧ (∀ (b : BrownNoise) (a : ℚ),
        0 ≤ (b.setAmplitude a).amplitude ∧ (b.setAmplitude a).amplitude ≤ 1
        ∧ (0 ≤ a → a ≤ 1 → (b.setAmplitude a).amplitude = a))
    ∧ (∀ (e : ADSREnvelope) (l : ℚ),
        0 ≤ (e.setSustainLevel l).sustain_level ∧ (e.setSustainLevel l).sustain_level ≤ 1
        ∧ (0 ≤ l → l ≤ 1 → (e.setSustainLevel l).sustain_level = l))
    ∧ (∀ (r : Router) (src : ℕ → ℕ → ℝ) (g v : ℝ) (law : PanLaw) (b : ℕ),
        ((r.addSource src g ⟨v, law⟩ b).sources.map fun s => s.pan.value)
          = (r.sources.map fun s => s.pan.value) ++ [v]) := by
  refine ⟨fun o a => ?_, fun s a => ?_, fun w a => ?_, fun b a => ?_, fun e l => ?_,
    fun r src g v law b => ?_⟩
  · exact ⟨(clampQ_mem 0 1 a (by norm_num)).1, (clampQ_mem 0 1 a (by norm_num)).2,
      fun ha hb => clampQ_of_mem 0 1 a ha hb⟩
  · exact ⟨(clampQ_mem 0 1 a (by norm_num)).1, (clampQ_mem 0 1 a (by norm_num)).2,
      fun ha hb => clampQ_of_mem 0 1 a ha hb⟩
  · exact ⟨(clampQ_mem 0 1 a (by norm_num)).1, (clampQ_mem 0 1 a (by norm_num)).2,
      fun ha hb => clampQ_of_mem 0 1 a ha hb⟩
  · exact ⟨(clampQ_mem 0 1 a (by norm_num)).1, (clampQ_mem 0 1 a (by norm_num)).2,
      fun ha hb => clampQ_of_mem 0 1 a ha hb⟩
  · exact ⟨(clampQ_mem 0 1 l (by norm_num)).1, (clampQ_mem 0 1 l (by norm_num)).2,
      fun ha hb => clampQ_of_mem 0 1 l ha hb⟩
  · simp [Router.addSource]

/-- Witness for the amended C8 theorem at concrete setter arguments, in
range and out of range, and a concrete out-of-range pan stored verbatim. -/
theorem param_clamping_amended_witness :
    ((Oscillator.new .Sine 440).setAmplitude (1 / 2)).amplitude = 1 / 2
    ∧ 0 ≤ ((SineOscillator.new 440).setAmplitude 7).amplitude
    ∧ ((WhiteNoise.withSeed 5).setAmplitude 7).amplitude ≤ 1
    ∧ ((BrownNoise.withSeed 5).setAmplitude (-3)).amplitude ≤ 1
    ∧ (ADSREnvelope.quick.setSustainLevel (3 / 4)).sustain_level = 3 / 4
    ∧ (((Router.new 2 48000 1 64).addSource (fun _ _ => 0) 1 ⟨(5 : ℝ), .Linear⟩ 0).sources.map
          fun s => s.pan.value)
        = ((Router.new 2 48000 1 64).sources.map fun s => s.pan.value) ++ [(5 : ℝ)] :=
  ⟨(param_clamping_amended.1 (Oscillator.new .Sine 440) (1 / 2)).2.2 (by norm_num) (by norm_num),
    (param_clamping_amended.2.1 (SineOscillator.new 440) 7).1,
    (param_clamping_amended.2.2.1 (WhiteNoise.withSeed 5) 7).2.1,
    (param_clamping_amended.2.2.2.1 (BrownNoise.withSeed 5) (-3)).2.1,
    (param_clamping_amended.2.2.2.2.1 ADSREnvelope.quick (3 / 4)).2.2 (by norm_num) (by norm_num),
    param_clamping_amended.2.2.2.2.2 (Router.new 2 48000 1 64) (fun _ _ => 0) 1 5 .Linear 0⟩

/-- C4, counterexample: the spec's stereo mixing formula with
`rendered_sample(source, i, c)` is wrong for sources whose rendered
channel 1 differs from channel 0: for `cexRouter` (one source rendering
`0` on channel 0 and `1` on channel 1, gain `1`, centred linear pan) the
router writes `0` at frame 0, channel 1 (it reads only rendered channel 0),
while the formula predicts `1 · 1 · 0.5 = 0.5`. -/
theorem router_stereo_mix_cex :
    processOutput cexRouter (0 * 2 + 1) ≠ specStereoMix cexRouter 0 1 := by
  have hL : processOutput cexRouter (0 * 2 + 1) = 0 := by
    norm_num [processOutput, cexRouter, Router.new, Router.addSource, masterSample,
      busSample, sourceContribution, clampedBus, Pan.gains,
      show List.range 1 = [0] from rfl]
  have hR : specStereoMix cexRouter 0 1 = 1 / 2 := by
    norm_num [specStereoMix, cexRouter, Router.new, Router.addSource, specPanGain,
      clampedBus, Pan.gains, show List.range 1 = [0] from rfl, List.filter]
  rw [hL, hR]
  norm_num

/-- C4 (amended): for a stereo router, the interleaved output sample at
frame `i`, channel `c` equals the sum over all buses of the sum over the
sources assigned (after clamping) to that bus of
`rendered_sample(source, i, 0) × gain(source) × pan_gain(source, c)` —
the stereo path folds the source to mono by reading rendered channel 0. -/
theorem router_stereo_mix_amended (r : Router) (i c : ℕ)
    (hch : r.channels = 2) (hc : c < 2) :
    processOutput r (i * 2 + c) = specStereoMixMono r i c := by
  have hmod : (i * 2 + c) % 2 = c := by omega
  have hdiv : (i * 2 + c) / 2 = i := by omega
  unfold processOutput
  rw [hch, hmod, hdiv]
  unfold masterSample specStereoMixMono
  rw [foldl_add_eq_sum, zero_add]
  congr 1
  apply List.map_congr_left
  intro b hb
  unfold busSample
  rw [foldl_add_eq_sum, zero_add,
    sum_map_ite_eq_filter r.sources (fun s => clampedBus r.num_buses s.bus = b)]
  congr 1
  apply List.map_congr_left
  intro s hs
  simp [sourceContribution, hch, specPanGain]

/-- Witness for the amended C4 theorem at `cexRouter`, frame 0, channel 0. -/
theorem router_stereo_mix_amended_witness :
    cexRouter.channels = 2 ∧ (0 : ℕ) < 2
    ∧ processOutput cexRouter (0 * 2 + 0) = specStereoMixMono cexRouter 0 0 :=
  ⟨rfl, by norm_num, router_stereo_mix_amended cexRouter 0 0 rfl (by norm_num)⟩

end Pulsar
